import Mathlib

/-!
Verification of the time-map asset pipeline scripts:
`scripts/generate-ios-splashes.py` (SplashGenerator) and
`scripts/optimize-pngs.py` (PngOptimizer).

The Python sources are shallowly embedded: images become a small inductive
of the Pillow operations actually used (open/new/resize/convert/
alpha_composite), the file system becomes an association list from paths
to stored images together with a list of directories, and each script's
`main` becomes a pure function over that state.  Paths are written
relative to the repository root (the scripts build absolute paths from
`Path(__file__).resolve().parents[1]`; the common absolute prefix is
elided, which preserves all equalities and distinctions between paths).
-/

namespace TimeMap

/-! ## Python `int(s, 16)` and `str.lstrip("#")`

`hex_to_rgb` calls `int(color[i:i+2], 16)`.  CPython's integer parser
accepts, beyond bare hex digits: surrounding ASCII whitespace, an
optional single leading sign, an optional `0x`/`0X` prefix (optionally
followed by one underscore), and single underscores between digits.
This is embedded exactly, because it decides what 6-character strings
`hex_to_rgb` accepts. -/

def isPySpace (c : Char) : Bool :=
  c = ' ' || c = '\t' || c = '\n' || c = '\x0d' || c = '\x0b' || c = '\x0c'

def hexDigitVal (c : Char) : Option Nat :=
  if '0' ≤ c ∧ c ≤ '9' then some (c.toNat - '0'.toNat)
  else if 'a' ≤ c ∧ c ≤ 'f' then some (c.toNat - 'a'.toNat + 10)
  else if 'A' ≤ c ∧ c ≤ 'F' then some (c.toNat - 'A'.toNat + 10)
  else none

/-- Digits after the first: single underscores may stand between digits,
never doubled, never trailing. -/
def hexTail : List Char → Nat → Option Nat
  | [], acc => some acc
  | '_' :: rest, acc =>
    match rest with
    | [] => none
    | c :: rest' =>
      match hexDigitVal c with
      | some v => hexTail rest' (16 * acc + v)
      | none => none
  | c :: rest, acc =>
    match hexDigitVal c with
    | some v => hexTail rest (16 * acc + v)
    | none => none

/-- The digit body must be nonempty and start with a digit. -/
def hexBody : List Char → Option Nat
  | [] => none
  | c :: rest =>
    match hexDigitVal c with
    | some v => hexTail rest v
    | none => none

/-- Embeds CPython `int(s, 16)`: `some n` when the call returns `n`,
`none` when it raises `ValueError`. -/
def pyIntHex (s : String) : Option Int :=
  let cs := s.toList.dropWhile isPySpace
  let cs := (cs.reverse.dropWhile isPySpace).reverse
  let signAndRest : Int × List Char :=
    match cs with
    | '+' :: r => (1, r)
    | '-' :: r => (-1, r)
    | _ => (1, cs)
  let body : List Char :=
    match signAndRest.2 with
    | '0' :: 'x' :: r => (match r with | '_' :: r' => r' | _ => r)
    | '0' :: 'X' :: r => (match r with | '_' :: r' => r' | _ => r)
    | r => r
  -- `0x` with nothing after it parses no digits and fails, as in CPython.
  (hexBody body).map (fun n => signAndRest.1 * n)

/-- Embeds Python `color.lstrip("#")`: every leading `'#'` is removed. -/
def lstripHash (s : String) : List Char :=
  s.toList.dropWhile (fun c => c = '#')

/-- Embeds `hex_to_rgb` from `scripts/generate-ios-splashes.py`.
`Except.error` stands for a raised `ValueError`: the explicit length
check raises with the message embedded here, and a failing
`int(color[i:i+2], 16)` raises its own `ValueError`. -/
def hex_to_rgb (color : String) : Except String (Int × Int × Int) :=
  let c := lstripHash color
  if c.length ≠ 6 then
    .error ("Expected 6-digit hex color, got: " ++ String.mk c)
  else
    match pyIntHex (String.mk (c.take 2)),
          pyIntHex (String.mk ((c.drop 2).take 2)),
          pyIntHex (String.mk ((c.drop 4).take 2)) with
    | some r, some g, some b => .ok (r, g, b)
    | _, _, _ => .error "invalid literal for int() with base 16"

/-! ## Images and the file system

An image is the tree of Pillow operations that produced it; `raw` stands
for an arbitrary decoded raster already on disk.  The filter argument of
`resize` records `Image.LANCZOS`.  Width and height follow Pillow: `new`
and `resize` fix them, `convert` keeps them, `alpha_composite` into a
canvas keeps the canvas's. -/

inductive Img where
  | raw (mode : String) (w h : Nat)
  | new (mode : String) (w h : Nat) (color : Int × Int × Int × Int)
  | resize (i : Img) (w h : Nat) (filter : String)
  | convert (i : Img) (mode : String)
  | composite (canvas : Img) (icon : Img) (x y : Nat)
deriving DecidableEq, Repr

def Img.width : Img → Nat
  | .raw _ w _ => w
  | .new _ w _ _ => w
  | .resize _ w _ _ => w
  | .convert i _ => i.width
  | .composite c _ _ _ => c.width

def Img.height : Img → Nat
  | .raw _ _ h => h
  | .new _ _ h _ => h
  | .resize _ _ h _ => h
  | .convert i _ => i.height
  | .composite c _ _ _ => c.height

/-- The file system visible to the scripts: regular files (path ↦ stored
image) and directories, both relative to the repository root. A write
prepends, and reads take the most recent entry, so writing overwrites. -/
structure FS where
  files : List (String × Img)
  dirs : List String
deriving DecidableEq, Repr

def FS.readFile (fs : FS) (p : String) : Option Img :=
  fs.files.lookup p

def FS.fileExists (fs : FS) (p : String) : Bool :=
  (fs.readFile p).isSome

def FS.writeFile (fs : FS) (p : String) (i : Img) : FS :=
  { fs with files := (p, i) :: fs.files }

/-- Embeds `Path.mkdir(parents=True, exist_ok=True)`. -/
def FS.mkdir (fs : FS) (p : String) : FS :=
  if p ∈ fs.dirs then fs else { fs with dirs := p :: fs.dirs }

/-! ## SplashGenerator (`scripts/generate-ios-splashes.py`) -/

/-- Embeds the frozen dataclass `SplashSpec`. -/
structure SplashSpec where
  width : Nat
  height : Nat
  filename : String
deriving DecidableEq, Repr

/-- Embeds the fixed list `SPLASH_SPECS`. -/
def SPLASH_SPECS : List SplashSpec :=
  [⟨1290, 2796, "1290x2796.png"⟩,
   ⟨1179, 2556, "1179x2556.png"⟩,
   ⟨1170, 2532, "1170x2532.png"⟩]

/-- Embeds `icon_candidates` (paths relative to the repository root). -/
def iconCandidates : List String :=
  ["icons/ios/1024.png", "icons/ios/512.png", "icons/ios/192.png"]

/-- Embeds `next((p for p in icon_candidates if p.exists()), None)`. -/
def resolveIcon (fs : FS) : Option String :=
  iconCandidates.find? (fun p => fs.fileExists p)

/-- The `SystemExit` diagnostic raised when no candidate exists. -/
def missingMsg : String :=
  "Missing source icon. Tried: " ++ String.intercalate ", " iconCandidates

/-- Embeds `bg = hex_to_rgb("#FDFBF7")`.  The source lets a `ValueError`
propagate; the error branch here is unreachable (`hex_to_rgb "#FDFBF7"`
provably succeeds), so the fallback value is never used. -/
def bg : Int × Int × Int :=
  match hex_to_rgb "#FDFBF7" with
  | .ok c => c
  | .error _ => (0, 0, 0)

/-- Embeds `icon_size = int(min(spec.width, spec.height) * 0.22)`.
The source computes in IEEE-754 double precision; for every spec in
`SPLASH_SPECS` the product `min * float64(0.22)` lies strictly between
the same consecutive integers as the exact rational `min * 22 / 100`
(the exact fractional parts are 0.8, 0.38 and 0.4, while the
double-rounding error is below 1e-12), so truncation agrees and the
exact rational floor embeds the computation faithfully on these
inputs. -/
def iconSize (spec : SplashSpec) : Nat :=
  min spec.width spec.height * 22 / 100

/-- Embeds `x = (spec.width - icon_size) // 2`.  Python's `int`
arithmetic coincides with `Nat` here because `icon_size ≤ width` for
every spec processed (proved below for `SPLASH_SPECS`). -/
def offX (spec : SplashSpec) : Nat :=
  (spec.width - iconSize spec) / 2

/-- Embeds `y = (spec.height - icon_size) // 2`. -/
def offY (spec : SplashSpec) : Nat :=
  (spec.height - iconSize spec) / 2

/-- The image persisted for one spec: canvas of the spec's exact size
filled with `(*bg, 255)`, the icon resized to `icon_size` square and
alpha-composited at `(x, y)`, flattened with `convert("RGB")`. -/
def splashOut (icon : Img) (spec : SplashSpec) : Img :=
  Img.convert
    (Img.composite
      (Img.new "RGBA" spec.width spec.height (bg.1, bg.2.1, bg.2.2, 255))
      (Img.resize icon (iconSize spec) (iconSize spec) "LANCZOS")
      (offX spec) (offY spec))
    "RGB"

/-- Result of a script run: normal completion or a fatal abort, each
carrying the file-system state at that moment. -/
inductive RunResult where
  | ok (fs : FS)
  | fatal (msg : String) (fs : FS)
deriving DecidableEq, Repr

/-- Embeds `icon = Image.open(icon_path).convert("RGBA")`: opening an
existing file yields its stored raster.  `resolveIcon` only returns
paths that exist, so the `getD` fallback is never reached. -/
def loadedIcon (fs : FS) (p : String) : Img :=
  Img.convert ((fs.readFile p).getD (Img.raw "RGBA" 0 0)) "RGBA"

/-- Embeds `main()` of `scripts/generate-ios-splashes.py`, in source
order: probe the candidates, create the output directory, abort if no
candidate exists, open and convert the icon, write `icons/ios/1024.png`
only if absent, then render and write every spec's splash file. -/
def generateMain (fs : FS) : RunResult :=
  let fs1 := fs.mkdir "splash"
  match resolveIcon fs with
  | none => .fatal missingMsg fs1
  | some p =>
    let icon := loadedIcon fs1 p
    let fs2 :=
      if fs1.fileExists "icons/ios/1024.png" then fs1
      else fs1.writeFile "icons/ios/1024.png"
        (Img.convert (Img.resize icon 1024 1024 "LANCZOS") "RGB")
    let fs3 := SPLASH_SPECS.foldl
      (fun f spec => f.writeFile ("splash/" ++ spec.filename) (splashOut icon spec)) fs2
    .ok fs3

/-! ## PngOptimizer (`scripts/optimize-pngs.py`)

The walk `iter_pngs(TARGET_DIRS)` yields a sequence of PNG files; the
embedding takes that sequence as input.  A file carries its current byte
size, whether Pillow can decode and re-encode it (`decodeOk`), and the
byte size its lossless re-encode would have (`optSize`). -/

structure Png where
  path : String
  size : Nat
  decodeOk : Bool
  optSize : Nat
deriving DecidableEq, Repr

/-- The in-place state of a file after `optimize_png` succeeds on it. -/
def reenc (f : Png) : Png :=
  { f with size := f.optSize }

/-- Embeds `optimize_png`: returns `(before, after)` and the mutated
file, or the failing path when `Image.open`/`load`/`save` raises. -/
def optimize_png (f : Png) : Except String ((Nat × Nat) × Png) :=
  if f.decodeOk then .ok ((f.size, f.optSize), reenc f)
  else .error f.path

/-- Outcome of the optimizer's loop: normal completion or a fatal abort
at one file.  Both carry the on-disk file list at that moment; `done`
also carries the loop totals `touched`, `total_before`, `total_after`,
while `fatal` carries the totals accumulated before the failing file
(nothing is printed in that case). -/
inductive OptOutcome where
  | done (files : List Png) (touched totalBefore totalAfter : Nat)
  | fatal (path : String) (files : List Png) (touched totalBefore totalAfter : Nat)
deriving DecidableEq, Repr

/-- A file whose in-place rewrite already happened stays on disk in
front of whatever the rest of the loop leaves behind, whether the loop
completes or aborts.  This carries the outcome of the remaining
iterations past one successfully processed file. -/
def pushFile (f : Png) : OptOutcome → OptOutcome
  | .done fs t b a => .done (f :: fs) t b a
  | .fatal p fs t b a => .fatal p (f :: fs) t b a

/-- Embeds the `for png in iter_pngs(TARGET_DIRS)` loop of `main()`:
each file is processed in order; an exception from `optimize_png`
propagates at once, leaving already-re-encoded files in place and
later files untouched. -/
def optLoop : List Png → Nat → Nat → Nat → OptOutcome
  | [], t, b, a => .done [] t b a
  | f :: rest, t, b, a =>
    match optimize_png f with
    | .error p => .fatal p (f :: rest) t b a
    | .ok ((before, after), f') =>
      pushFile f' (optLoop rest (t + 1) (b + before) (a + after))

/-- Embeds `main()` of `scripts/optimize-pngs.py` applied to the file
sequence the directory walk produced (empty when every target directory
is absent or holds no PNG). -/
def optMain (files : List Png) : OptOutcome :=
  optLoop files 0 0 0

/-- Embeds the summary computation of `main()`:
`delta = total_before - total_after` (a Python `int`, so ℤ) and
`pct = (delta / total_before * 100.0) if total_before else 0.0`
(true division, embedded over ℚ).  Returns the reported quintuple
(files touched, bytes before, bytes after, delta, percentage). -/
def summaryOf (touched totalBefore totalAfter : Nat) : Nat × Nat × Nat × Int × ℚ :=
  let delta : Int := (totalBefore : Int) - (totalAfter : Int)
  let pct : ℚ := if totalBefore ≠ 0 then (delta : ℚ) / (totalBefore : ℚ) * 100 else 0
  (touched, totalBefore, totalAfter, delta, pct)

def sumBefore (files : List Png) : Nat :=
  (files.map Png.size).sum

def sumAfter (files : List Png) : Nat :=
  (files.map Png.optSize).sum

/-! ## Concrete states used to instantiate the theorems -/

/-- A repository containing only the 512-pixel icon candidate. -/
def fsWith512 : FS :=
  ⟨[("icons/ios/512.png", Img.raw "RGB" 512 512)], []⟩

def icon512 : Img :=
  Img.convert (Img.raw "RGB" 512 512) "RGBA"

/-- The file system `generateMain` produces from `fsWith512`. -/
def fsAfter512 : FS :=
  ⟨[("splash/" ++ "1170x2532.png", splashOut icon512 ⟨1170, 2532, "1170x2532.png"⟩),
    ("splash/" ++ "1179x2556.png", splashOut icon512 ⟨1179, 2556, "1179x2556.png"⟩),
    ("splash/" ++ "1290x2796.png", splashOut icon512 ⟨1290, 2796, "1290x2796.png"⟩),
    ("icons/ios/1024.png", Img.convert (Img.resize icon512 1024 1024 "LANCZOS") "RGB"),
    ("icons/ios/512.png", Img.raw "RGB" 512 512)],
   ["splash"]⟩

/-- A repository in which the canonical 1024-pixel icon already exists. -/
def fsWith1024 : FS :=
  ⟨[("icons/ios/1024.png", Img.raw "RGB" 1024 1024)], []⟩

def icon1024 : Img :=
  Img.convert (Img.raw "RGB" 1024 1024) "RGBA"

/-- The file system `generateMain` produces from `fsWith1024`. -/
def fsAfter1024 : FS :=
  ⟨[("splash/" ++ "1170x2532.png", splashOut icon1024 ⟨1170, 2532, "1170x2532.png"⟩),
    ("splash/" ++ "1179x2556.png", splashOut icon1024 ⟨1179, 2556, "1179x2556.png"⟩),
    ("splash/" ++ "1290x2796.png", splashOut icon1024 ⟨1290, 2796, "1290x2796.png"⟩),
    ("icons/ios/1024.png", Img.raw "RGB" 1024 1024)],
   ["splash"]⟩

def pngA : Png := ⟨"a.png", 10, true, 7⟩

def pngB : Png := ⟨"b.png", 5, false, 5⟩

def pngC : Png := ⟨"c.png", 9, true, 9⟩

/-! ## File-system lemmas -/

theorem FS.mkdir_files (fs : FS) (p : String) : (fs.mkdir p).files = fs.files := by
  unfold FS.mkdir
  split <;> rfl

theorem FS.readFile_mkdir (fs : FS) (p q : String) :
    (fs.mkdir p).readFile q = fs.readFile q := by
  unfold FS.readFile
  rw [FS.mkdir_files]

theorem FS.fileExists_mkdir (fs : FS) (p q : String) :
    (fs.mkdir p).fileExists q = fs.fileExists q := by
  unfold FS.fileExists
  rw [FS.readFile_mkdir]

theorem FS.readFile_writeFile_self (fs : FS) (p : String) (i : Img) :
    (fs.writeFile p i).readFile p = some i := by
  simp [FS.writeFile, FS.readFile, List.lookup]

theorem FS.readFile_writeFile_ne (fs : FS) (p q : String) (i : Img) (h : (q == p) = false) :
    (fs.writeFile p i).readFile q = fs.readFile q := by
  simp [FS.writeFile, FS.readFile, List.lookup, h]

/-! ## Claim theorems -/

/-- C2: for every spec in the fixed list, the persisted splash image is
the RGB flattening of a canvas of the spec's exact size filled with the
background color, with the icon resized to a square of side
`icon_size = ⌊min(width, height) · 0.22⌋` and composited at
`x = ⌊(width − icon_size) / 2⌋`, `y = ⌊(height − icon_size) / 2⌋`;
the left/right margins and the top/bottom margins each differ by at
most one pixel. -/
theorem icon_square_centered_within_one_pixel (spec : SplashSpec)
    (h : spec ∈ SPLASH_SPECS) (icon : Img) :
    splashOut icon spec =
      Img.convert
        (Img.composite
          (Img.new "RGBA" spec.width spec.height (253, 251, 247, 255))
          (Img.resize icon (min spec.width spec.height * 22 / 100)
            (min spec.width spec.height * 22 / 100) "LANCZOS")
          ((spec.width - min spec.width spec.height * 22 / 100) / 2)
          ((spec.height - min spec.width spec.height * 22 / 100) / 2))
        "RGB" ∧
    (spec.width - iconSize spec - offX spec) - offX spec ≤ 1 ∧
    offX spec - (spec.width - iconSize spec - offX spec) ≤ 1 ∧
    (spec.height - iconSize spec - offY spec) - offY spec ≤ 1 ∧
    offY spec - (spec.height - iconSize spec - offY spec) ≤ 1 := by
  fin_cases h <;>
    exact ⟨rfl, by decide, by decide, by decide, by decide⟩

/-- C2 witness: the first spec of the list, with an arbitrary source
icon raster. -/
theorem icon_square_centered_witness :
    splashOut (Img.raw "RGBA" 1024 1024) ⟨1290, 2796, "1290x2796.png"⟩ =
      Img.convert
        (Img.composite
          (Img.new "RGBA" 1290 2796 (253, 251, 247, 255))
          (Img.resize (Img.raw "RGBA" 1024 1024) 283 283 "LANCZOS")
          503 1256)
        "RGB" ∧
    (1290 - iconSize ⟨1290, 2796, "1290x2796.png"⟩ - offX ⟨1290, 2796, "1290x2796.png"⟩) -
        offX ⟨1290, 2796, "1290x2796.png"⟩ ≤ 1 ∧
    offX ⟨1290, 2796, "1290x2796.png"⟩ -
        (1290 - iconSize ⟨1290, 2796, "1290x2796.png"⟩ - offX ⟨1290, 2796, "1290x2796.png"⟩) ≤ 1 ∧
    (2796 - iconSize ⟨1290, 2796, "1290x2796.png"⟩ - offY ⟨1290, 2796, "1290x2796.png"⟩) -
        offY ⟨1290, 2796, "1290x2796.png"⟩ ≤ 1 ∧
    offY ⟨1290, 2796, "1290x2796.png"⟩ -
        (2796 - iconSize ⟨1290, 2796, "1290x2796.png"⟩ - offY ⟨1290, 2796, "1290x2796.png"⟩) ≤ 1 :=
  icon_square_centered_within_one_pixel ⟨1290, 2796, "1290x2796.png"⟩ (by decide)
    (Img.raw "RGBA" 1024 1024)

/-- C9: for every spec in the fixed built-in list, `icon_size` is
strictly positive and at most the shorter canvas side, and the placement
offsets leave the scaled icon entirely within the canvas bounds. -/
theorem icon_fits_within_canvas (spec : SplashSpec) (h : spec ∈ SPLASH_SPECS) :
    0 < iconSize spec ∧
    iconSize spec ≤ min spec.width spec.height ∧
    offX spec + iconSize spec ≤ spec.width ∧
    offY spec + iconSize spec ≤ spec.height := by
  fin_cases h <;> decide

/-- C9 witness: the first spec of the list. -/
theorem icon_fits_within_canvas_witness :
    0 < iconSize ⟨1290, 2796, "1290x2796.png"⟩ ∧
    iconSize ⟨1290, 2796, "1290x2796.png"⟩ ≤ min 1290 2796 ∧
    offX ⟨1290, 2796, "1290x2796.png"⟩ + iconSize ⟨1290, 2796, "1290x2796.png"⟩ ≤ 1290 ∧
    offY ⟨1290, 2796, "1290x2796.png"⟩ + iconSize ⟨1290, 2796, "1290x2796.png"⟩ ≤ 2796 :=
  icon_fits_within_canvas ⟨1290, 2796, "1290x2796.png"⟩ (by decide)

/-- C6: the icon source is resolved by probing `icons/ios/1024.png`,
`icons/ios/512.png`, `icons/ios/192.png` in exactly that order; the
first existing candidate wins, a lower-priority candidate is selected
only when every higher-priority one is absent, and resolution fails
only when all three are absent. -/
theorem icon_candidates_priority_order (fs : FS) :
    (fs.fileExists "icons/ios/1024.png" = true →
      resolveIcon fs = some "icons/ios/1024.png") ∧
    (fs.fileExists "icons/ios/1024.png" = false →
      fs.fileExists "icons/ios/512.png" = true →
      resolveIcon fs = some "icons/ios/512.png") ∧
    (fs.fileExists "icons/ios/1024.png" = false →
      fs.fileExists "icons/ios/512.png" = false →
      fs.fileExists "icons/ios/192.png" = true →
      resolveIcon fs = some "icons/ios/192.png") ∧
    (fs.fileExists "icons/ios/1024.png" = false →
      fs.fileExists "icons/ios/512.png" = false →
      fs.fileExists "icons/ios/192.png" = false →
      resolveIcon fs = none) := by
  refine ⟨fun h1 => ?_, fun h1 h2 => ?_, fun h1 h2 h3 => ?_, fun h1 h2 h3 => ?_⟩ <;>
    simp_all [resolveIcon, iconCandidates, List.find?]

/-- C6 witness: a repository holding only the 512-pixel candidate
resolves to it. -/
theorem icon_candidates_priority_order_witness :
    resolveIcon fsWith512 = some "icons/ios/512.png" :=
  (icon_candidates_priority_order fsWith512).2.1 rfl rfl

/-- C10: `lstrip("#")` removes every leading `#`, so an input with
several `#` prefixes still parses: `hex_to_rgb "##FDFBF7"` succeeds and
returns `(253, 251, 247)`, and the stripped text coincides with that of
`"#FDFBF7"`. -/
theorem hex_to_rgb_multiple_hash_marks :
    hex_to_rgb "##FDFBF7" = .ok (253, 251, 247) ∧
    lstripHash "##FDFBF7" = lstripHash "#FDFBF7" ∧
    hex_to_rgb "####FDFBF7" = .ok (253, 251, 247) :=
  ⟨rfl, rfl, rfl⟩

/-- C4 counterexample: `"+1+2+3"` is six characters after stripping but
is not six hex digits, yet `hex_to_rgb` returns `(1, 2, 3)` instead of
failing, because CPython's `int(s, 16)` accepts a sign before each
two-character slice. -/
theorem hex_to_rgb_accepts_nonhex_six_chars :
    hex_to_rgb "+1+2+3" = .ok (1, 2, 3) ∧
    (lstripHash "+1+2+3").length = 6 ∧
    ((lstripHash "+1+2+3").all fun c => (hexDigitVal c).isSome) = false :=
  ⟨rfl, rfl, rfl⟩

/-- C4 (amended): `hex_to_rgb "#FDFBF7"` and `hex_to_rgb "FDFBF7"` both
return `(253, 251, 247)` (the `#` prefix is optional), and every string
whose length after stripping is not 6 fails with the `ValueError`
naming the offending text; however a 6-character non-hex-digit string
can still succeed when each 2-character slice is accepted by Python's
`int(_, 16)` (see the counterexample). -/
theorem hex_to_rgb_examples_and_length_check :
    hex_to_rgb "#FDFBF7" = .ok (253, 251, 247) ∧
    hex_to_rgb "FDFBF7" = .ok (253, 251, 247) ∧
    ∀ s : String, (lstripHash s).length ≠ 6 →
      hex_to_rgb s =
        .error ("Expected 6-digit hex color, got: " ++ String.mk (lstripHash s)) :=
  ⟨rfl, rfl, fun s h => by simp [hex_to_rgb, h]⟩

/-- C4 witness: `"abc"` strips to 3 characters and is rejected. -/
theorem hex_to_rgb_examples_witness :
    hex_to_rgb "abc" =
      .error ("Expected 6-digit hex color, got: " ++ String.mk (lstripHash "abc")) :=
  hex_to_rgb_examples_and_length_check.2.2 "abc" (by decide)

/-- C1: whenever SplashGenerator completes, every spec of the fixed list
has exactly one output file at `splash/<filename>` whose dimensions are
exactly `(width, height)`; the stored image is the freshly generated
splash, regardless of what the path held before the run (existing files
are overwritten). -/
theorem splash_files_written_with_spec_dimensions (fs fs' : FS)
    (h : generateMain fs = .ok fs') (spec : SplashSpec) (hs : spec ∈ SPLASH_SPECS) :
    ∃ img, fs'.readFile ("splash/" ++ spec.filename) = some img ∧
      img.width = spec.width ∧ img.height = spec.height ∧
      ∃ p, resolveIcon fs = some p ∧
        img = splashOut (loadedIcon (fs.mkdir "splash") p) spec := by
  cases hr : resolveIcon fs with
  | none => simp [generateMain, hr] at h
  | some p =>
    simp only [generateMain, hr, SPLASH_SPECS, List.foldl, RunResult.ok.injEq] at h
    subst h
    fin_cases hs
    · refine ⟨splashOut (loadedIcon (fs.mkdir "splash") p) ⟨1290, 2796, "1290x2796.png"⟩,
        ?_, rfl, rfl, p, rfl, rfl⟩
      rw [FS.readFile_writeFile_ne _ _ _ _ (by decide),
        FS.readFile_writeFile_ne _ _ _ _ (by decide)]
      exact FS.readFile_writeFile_self _ _ _
    · refine ⟨splashOut (loadedIcon (fs.mkdir "splash") p) ⟨1179, 2556, "1179x2556.png"⟩,
        ?_, rfl, rfl, p, rfl, rfl⟩
      rw [FS.readFile_writeFile_ne _ _ _ _ (by decide)]
      exact FS.readFile_writeFile_self _ _ _
    · exact ⟨splashOut (loadedIcon (fs.mkdir "splash") p) ⟨1170, 2532, "1170x2532.png"⟩,
        FS.readFile_writeFile_self _ _ _, rfl, rfl, p, rfl, rfl⟩

/-- C1 witness: a run over a repository holding only the 512-pixel icon,
checked at the first spec. -/
theorem splash_files_written_witness :
    ∃ img, fsAfter512.readFile ("splash/" ++ "1290x2796.png") = some img ∧
      img.width = 1290 ∧ img.height = 2796 ∧
      ∃ p, resolveIcon fsWith512 = some p ∧
        img = splashOut (loadedIcon (fsWith512.mkdir "splash") p)
          ⟨1290, 2796, "1290x2796.png"⟩ :=
  splash_files_written_with_spec_dimensions fsWith512 fsAfter512 rfl
    ⟨1290, 2796, "1290x2796.png"⟩ (by decide)

/-- C5: whenever SplashGenerator completes, `icons/ios/1024.png` is
untouched if it already existed (its stored content after the run is
its content before), and is written exactly once — as the Lanczos
upscale of the loaded icon, flattened to RGB — if it was absent. -/
theorem icon_1024_written_only_when_absent (fs fs' : FS)
    (h : generateMain fs = .ok fs') :
    (fs.fileExists "icons/ios/1024.png" = true →
      fs'.readFile "icons/ios/1024.png" = fs.readFile "icons/ios/1024.png") ∧
    (fs.fileExists "icons/ios/1024.png" = false →
      ∃ p, resolveIcon fs = some p ∧
        fs'.readFile "icons/ios/1024.png" =
          some (Img.convert
            (Img.resize (loadedIcon (fs.mkdir "splash") p) 1024 1024 "LANCZOS")
            "RGB")) := by
  cases hr : resolveIcon fs with
  | none => simp [generateMain, hr] at h
  | some p =>
    simp only [generateMain, hr, SPLASH_SPECS, List.foldl, RunResult.ok.injEq] at h
    subst h
    constructor
    · intro hex
      rw [FS.readFile_writeFile_ne _ _ _ _ (by decide),
        FS.readFile_writeFile_ne _ _ _ _ (by decide),
        FS.readFile_writeFile_ne _ _ _ _ (by decide)]
      rw [if_pos (by rw [FS.fileExists_mkdir, hex])]
      exact FS.readFile_mkdir fs "splash" "icons/ios/1024.png"
    · intro hex
      refine ⟨p, rfl, ?_⟩
      rw [FS.readFile_writeFile_ne _ _ _ _ (by decide),
        FS.readFile_writeFile_ne _ _ _ _ (by decide),
        FS.readFile_writeFile_ne _ _ _ _ (by decide)]
      rw [if_neg (by rw [FS.fileExists_mkdir, hex]; exact Bool.false_ne_true)]
      exact FS.readFile_writeFile_self _ _ _

/-- C5 witness: a repository in which the 1024-pixel icon already
exists keeps it byte-for-byte. -/
theorem icon_1024_preserved_witness :
    fsAfter1024.readFile "icons/ios/1024.png" =
      fsWith1024.readFile "icons/ios/1024.png" :=
  (icon_1024_written_only_when_absent fsWith1024 fsAfter1024 rfl).1 rfl

/-- C3 counterexample: on a file system holding none of the candidate
icons (and no `splash` directory), the run halts with the
missing-input diagnostic and writes no files, but the file system after
the failed run differs from the initial one: the output directory
`splash` was created before the check. -/
theorem missing_icon_counterexample :
    resolveIcon (⟨[], []⟩ : FS) = none ∧
    generateMain ⟨[], []⟩ = .fatal missingMsg ⟨[], ["splash"]⟩ ∧
    (⟨[], ["splash"]⟩ : FS).files = [] ∧
    (⟨[], ["splash"]⟩ : FS) ≠ (⟨[], []⟩ : FS) :=
  ⟨rfl, rfl, rfl, by decide⟩

/-- C3 (amended): when no candidate icon exists, SplashGenerator halts
with the missing-input diagnostic naming all three attempted candidates
and writes no files, but it creates the output directory `splash`
before the check, so the file system is unchanged except for that
directory creation. -/
theorem missing_icon_halts_without_file_writes (fs : FS)
    (h : resolveIcon fs = none) :
    generateMain fs = .fatal missingMsg (fs.mkdir "splash") ∧
    (fs.mkdir "splash").files = fs.files ∧
    missingMsg =
      "Missing source icon. Tried: icons/ios/1024.png, icons/ios/512.png, icons/ios/192.png" := by
  refine ⟨?_, FS.mkdir_files fs "splash", rfl⟩
  simp [generateMain, h]

/-- C3 witness: the empty file system. -/
theorem missing_icon_halts_witness :
    generateMain ⟨[], []⟩ = .fatal missingMsg ((⟨[], []⟩ : FS).mkdir "splash") ∧
    ((⟨[], []⟩ : FS).mkdir "splash").files = (⟨[], []⟩ : FS).files ∧
    missingMsg =
      "Missing source icon. Tried: icons/ios/1024.png, icons/ios/512.png, icons/ios/192.png" :=
  missing_icon_halts_without_file_writes ⟨[], []⟩ rfl

/-! ## Optimizer lemmas -/

theorem sumBefore_cons (f : Png) (l : List Png) :
    sumBefore (f :: l) = f.size + sumBefore l := by
  simp [sumBefore]

theorem sumAfter_cons (f : Png) (l : List Png) :
    sumAfter (f :: l) = f.optSize + sumAfter l := by
  simp [sumAfter]

/-- When the loop completes, the final totals are the initial ones plus
the file count and the byte sums of the processed list, and every file
is left in its re-encoded state. -/
theorem optLoop_done_totals (files : List Png) :
    ∀ (t b a : Nat) (fs : List Png) (t' b' a' : Nat),
      optLoop files t b a = .done fs t' b' a' →
      fs = files.map reenc ∧
      t' = t + files.length ∧ b' = b + sumBefore files ∧ a' = a + sumAfter files := by
  induction files with
  | nil =>
    intro t b a fs t' b' a' h
    simp only [optLoop, OptOutcome.done.injEq] at h
    obtain ⟨h1, h2, h3, h4⟩ := h
    simp [← h1, ← h2, ← h3, ← h4, sumBefore, sumAfter]
  | cons f rest ih =>
    intro t b a fs t' b' a' h
    cases hd : f.decodeOk with
    | false =>
      simp [optLoop, optimize_png, hd] at h
    | true =>
      simp only [optLoop, optimize_png, hd, if_true] at h
      cases hrec : optLoop rest (t + 1) (b + f.size) (a + f.optSize) with
      | done fs2 t2 b2 a2 =>
        rw [hrec] at h
        simp only [pushFile, OptOutcome.done.injEq] at h
        obtain ⟨h1, h2, h3, h4⟩ := h
        obtain ⟨g1, g2, g3, g4⟩ := ih (t + 1) (b + f.size) (a + f.optSize) fs2 t2 b2 a2 hrec
        subst g1
        refine ⟨by rw [← h1, List.map_cons], ?_, ?_, ?_⟩
        · rw [← h2, g2, List.length_cons]; omega
        · rw [← h3, g3, sumBefore_cons]; omega
        · rw [← h4, g4, sumAfter_cons]; omega
      | fatal p2 fs2 t2 b2 a2 =>
        rw [hrec] at h
        simp [pushFile] at h

/-- When the first file that cannot be decoded or re-encoded is reached,
the loop aborts with that file's path: the files before it stay
re-encoded, it and every later file stay untouched, and the totals are
those accumulated before it. -/
theorem optLoop_fatal_at (bad : Png) (rest : List Png) (hbad : bad.decodeOk = false) :
    ∀ (pre : List Png), (∀ f ∈ pre, f.decodeOk = true) →
      ∀ (t b a : Nat),
        optLoop (pre ++ bad :: rest) t b a =
          .fatal bad.path (pre.map reenc ++ bad :: rest)
            (t + pre.length) (b + sumBefore pre) (a + sumAfter pre) := by
  intro pre
  induction pre with
  | nil =>
    intro _ t b a
    simp [optLoop, optimize_png, hbad, sumBefore, sumAfter]
  | cons f pre' ih =>
    intro hpre t b a
    have hf : f.decodeOk = true := hpre f (List.mem_cons_self f pre')
    have hpre' : ∀ g ∈ pre', g.decodeOk = true :=
      fun g hg => hpre g (List.mem_cons_of_mem f hg)
    simp only [List.cons_append, optLoop, optimize_png, hf, if_true, List.append_eq]
    rw [ih hpre' (t + 1) (b + f.size) (a + f.optSize)]
    simp only [pushFile, List.map_cons, List.cons_append, List.length_cons,
      sumBefore_cons, sumAfter_cons]
    congr 1 <;> omega

/-- C7: whenever PngOptimizer completes, the summary's file count is
the number of files the walk yielded, the byte totals are the sums of
sizes before and after, the reported delta is `total_before −
total_after` over ℤ, the reported percentage is
`delta / total_before · 100` over ℚ, and an empty walk reports
`0` files and `0` percent with no division performed. -/
theorem optimizer_summary_totals (files fs : List Png) (t b a : Nat)
    (h : optMain files = .done fs t b a) :
    t = files.length ∧ b = sumBefore files ∧ a = sumAfter files ∧
    (summaryOf t b a).2.2.2.1 = (b : Int) - (a : Int) ∧
    (b ≠ 0 →
      (summaryOf t b a).2.2.2.2 = (((b : Nat) : ℚ) - ((a : Nat) : ℚ)) / ((b : Nat) : ℚ) * 100) ∧
    (files = [] → summaryOf t b a = (0, 0, 0, 0, 0)) := by
  obtain ⟨-, ht, hb, ha⟩ := optLoop_done_totals files 0 0 0 fs t b a h
  refine ⟨by omega, by omega, by omega, rfl, ?_, ?_⟩
  · intro hbne
    simp only [summaryOf, if_pos hbne]
    push_cast
    ring
  · intro hfe
    subst hfe
    simp only [List.length_nil, sumBefore, sumAfter, List.map_nil, List.sum_nil] at ht hb ha
    subst ht; subst hb; subst ha
    norm_num [summaryOf]

/-- C7 witness: a single well-formed PNG shrinking from 10 to 7 bytes. -/
theorem optimizer_summary_totals_witness :
    1 = [pngA].length ∧ 10 = sumBefore [pngA] ∧ 7 = sumAfter [pngA] ∧
    (summaryOf 1 10 7).2.2.2.1 = ((10 : Nat) : Int) - ((7 : Nat) : Int) ∧
    ((10 : Nat) ≠ 0 →
      (summaryOf 1 10 7).2.2.2.2 = (((10 : Nat) : ℚ) - ((7 : Nat) : ℚ)) / ((10 : Nat) : ℚ) * 100) ∧
    ([pngA] = ([] : List Png) → summaryOf 1 10 7 = (0, 0, 0, 0, 0)) :=
  optimizer_summary_totals [pngA] [reenc pngA] 1 10 7 rfl

/-- C8: if one file fails to decode or re-encode, the run halts at that
file with a fatal error naming its path: no later file is processed
(they are left exactly as they were), and every file re-encoded before
the failure remains re-encoded (no rollback). -/
theorem optimizer_halts_at_first_failure (pre : List Png) (bad : Png) (rest : List Png)
    (hpre : ∀ f ∈ pre, f.decodeOk = true) (hbad : bad.decodeOk = false) :
    optMain (pre ++ bad :: rest) =
      .fatal bad.path (pre.map reenc ++ bad :: rest)
        pre.length (sumBefore pre) (sumAfter pre) := by
  rw [optMain, optLoop_fatal_at bad rest hbad pre hpre 0 0 0]
  congr 1 <;> omega

/-- C8 witness: a good file, then a corrupt one, then one never
reached. -/
theorem optimizer_halts_witness :
    optMain ([pngA] ++ pngB :: [pngC]) =
      .fatal pngB.path ([pngA].map reenc ++ pngB :: [pngC])
        [pngA].length (sumBefore [pngA]) (sumAfter [pngA]) :=
  optimizer_halts_at_first_failure [pngA] pngB [pngC] (by decide) rfl

end TimeMap
